import Mathlib

/-!
Shallow embedding of the Nordpool price-reconciliation service
(`prices.py`, `nordpool_client.py`, `model.py`, `storage.py`,
`update_unofficial_prices.py`) and proofs of its specified properties.

Time is modelled as an integer count of time units since an epoch
(minutes for price windows, seconds for token expiry); datetimes with a
timezone as a naive value paired with an optional offset.  External
collaborators (the HTTP transport, the event bus, the `BatchOfPrices`
reconciliation operations defined outside this repository) are passed in
as explicit parameters, or modelled from the spec where a claim needs
their behaviour; each such definition says so in its doc comment.
-/

namespace Nordpool

/-- Fetch status sent to the provider (`model.py`, `NordPoolStatus`):
provisional `"P"` or official `"O"`. -/
inductive NordPoolStatus where
  | provisional
  | official
deriving DecidableEq, Repr

/-- The single domain error (`teems.nordpoolservice.exceptions.NordPoolException`),
carrying only a message. -/
structure NordPoolException where
  msg : String
deriving DecidableEq, Repr

/-- A datetime as decoded from the provider: a naive value (time units
since epoch, ignoring any offset) together with an optional timezone
offset, mirroring Python `datetime.tzinfo`. -/
structure DateTimeTz where
  naive : ℤ
  tz : Option ℤ
deriving DecidableEq, Repr

/-- `v.replace(tzinfo=None)`: drop the timezone marker, keep the naive
clock reading unchanged (no conversion). -/
def DateTimeTz.removeTz (d : DateTimeTz) : DateTimeTz :=
  { d with tz := none }

/-- One decoded provider interval (`model.py`, `NordpoolPriceValue`):
`start_time`/`end_time` aliased from `startTime`/`endTime`, and a price. -/
structure NordpoolPriceValue where
  start_time : DateTimeTz
  end_time : DateTimeTz
  value : ℚ
deriving DecidableEq, Repr

/-- Pydantic construction of `NordpoolPriceValue` from raw provider
fields: the two `@validator`s `_remove_tz_start_time` and
`_remove_tz_end_time` replace `tzinfo` with `None` on each field
(`model.py` lines 33-44). -/
def NordpoolPriceValue.fromProvider (startRaw endRaw : DateTimeTz) (v : ℚ) :
    NordpoolPriceValue :=
  { start_time := startRaw.removeTz
    end_time := endRaw.removeTz
    value := v }

/-- One decoded price series as used by `prices.py` (`nordpool_prices.values`);
the `NordpoolPrices` pydantic model itself is outside `src/`, modelled from
its use as a list of price values. -/
structure NordpoolPrices where
  values : List NordpoolPriceValue
deriving DecidableEq, Repr

/-- Errors observable from `NordPoolClient.get_prices` in the embedding:
the converted domain error, or the uncaught `ValueError` raised by the
`prices, *_ = ...` unpacking when the decoded list is empty. -/
inductive GetPricesError where
  | nordpool (msg : String)
  | unpack
deriving DecidableEq, Repr

/-- Error raised by the REST transport while decoding a response body
(`common.utils.rest_client.RESTClientException`), external collaborator. -/
structure RESTClientException where
  msg : String
deriving DecidableEq, Repr

/-- Response-handling part of `NordPoolClient.get_prices`
(`nordpool_client.py` lines 97-113), as a pure function of the HTTP
response status and of the transport's decode result.  Mirrors the
source: raise `NordPoolException` when the status is outside
`range(200, 300)` or equals 204, raise `NordPoolException` when decoding
raises `RESTClientException`, otherwise destructure
`prices, *_ = parse_obj_as(List[NordpoolPrices], ...)` — which fails
with a `ValueError` (modelled `GetPricesError.unpack`) on an empty list
and returns the first series otherwise. -/
def get_prices (respStatus : ℕ)
    (decodeResult : Except RESTClientException (List NordpoolPrices)) :
    Except GetPricesError NordpoolPrices :=
  if ¬(200 ≤ respStatus ∧ respStatus < 300) ∨ respStatus = 204 then
    .error (.nordpool "There was an error getting prices from Nordpool")
  else
    match decodeResult with
    | .error _ => .error (.nordpool "Could not decode data for delivery area")
    | .ok [] => .error .unpack
    | .ok (prices :: _) => .ok prices

/-- A stored bearer credential (`model.py`, `NordPoolTokenResponse`);
`expires_at` in seconds since epoch. -/
structure NordPoolTokenResponse where
  access_token : String
  expires_at : ℤ
  token_type : String
deriving DecidableEq, Repr

/-- The provider's token-endpoint response (`model.py`,
`NordPoolApiTokenResponse`): a relative `expires_in` in seconds. -/
structure NordPoolApiTokenResponse where
  expires_in : ℤ
  access_token : String
  token_type : String
deriving DecidableEq, Repr

/-- `NordPoolClient.get_nordpool_token` (`nordpool_client.py` lines
33-56), with the HTTP exchange abstracted into its decoded response
`api` and `datetime.utcnow()` into `now`: builds the stored credential
with `expires_at = now + expires_in`.  The source also saves it to the
token storage; the embedding's caller records that. -/
def get_nordpool_token (api : NordPoolApiTokenResponse) (now : ℤ) :
    NordPoolTokenResponse :=
  { access_token := api.access_token
    expires_at := now + api.expires_in
    token_type := api.token_type }

/-- Result of one `renew_nordpool_token_if_needed` call: the returned
credential, whether a fresh one was acquired from the provider, and the
storage contents afterwards. -/
structure RenewResult where
  token : NordPoolTokenResponse
  acquired : Bool
  stored : Option NordPoolTokenResponse
deriving DecidableEq, Repr

/-- `NordPoolClient.renew_nordpool_token_if_needed` (`nordpool_client.py`
lines 58-64), with the storage read abstracted into `stored` and the
token endpoint's decoded response into `api`: if no credential is stored
or its `expires_at` is earlier than `now + timedelta(minutes=10)`
(600 seconds), call `get_nordpool_token` (which also stores the new
credential); otherwise return the stored credential unchanged. -/
def renew_nordpool_token_if_needed (stored : Option NordPoolTokenResponse)
    (now : ℤ) (api : NordPoolApiTokenResponse) : RenewResult :=
  match stored with
  | none =>
      let t := get_nordpool_token api now
      { token := t, acquired := true, stored := some t }
  | some tok =>
      if tok.expires_at < now + 10 * 60 then
        let t := get_nordpool_token api now
        { token := t, acquired := true, stored := some t }
      else
        { token := tok, acquired := false, stored := some tok }

/-- Region metadata used by the pipeline (`teems.region.abstract
.AbstractRegion`), external collaborator; only the fields the embedded
code reads. -/
structure AbstractRegion where
  price_area : String
  currency : String
  price_unit_for_db : String
deriving DecidableEq, Repr

/-- One priced time interval inside a batch; times in minutes since
epoch.  Matches the spec's `PriceInterval` (unit and currency live on
the batch). -/
structure PriceInterval where
  start : ℤ
  stop : ℤ
  value : ℚ
deriving DecidableEq, Repr

/-- A batch of prices (`teems.signal.price.BatchOfPrices`), external to
`src/`; fields modelled from the constructor call in
`get_batch_of_prices_for_region` and from the spec's `PriceBatch`. -/
structure BatchOfPrices where
  intervals : List PriceInterval
  ts_from : ℤ
  ts_to : ℤ
  unit : String
  region : AbstractRegion
deriving DecidableEq, Repr

/-- Origin tag attached to a published `Prices` event
(`teems.signal.model.PriceOrigin`), the three values `prices.py` and
`update_unofficial_prices.py` use. -/
inductive PriceOrigin where
  | nordpool_official
  | nordpool_provisional
  | generated
deriving DecidableEq, Repr

/-- Modelled from the spec: expiry values produced by the external
helpers `price_expiry()` and `provisional_price_expiry(time(h, m))` of
`teems.signal.model`, kept abstract as distinct tags; the spec says the
provisional one is a distinct, earlier expiry from a fixed local cutoff
time. -/
inductive Expiry where
  | price_expiry
  | provisional_price_expiry (hour minute : ℕ)
deriving DecidableEq, Repr

/-- A published event (`teems.signal.output_models.Prices` as passed to
`emit_event`): the batch, its origin and its expiry. -/
structure Prices where
  prices : BatchOfPrices
  origin : PriceOrigin
  expiry : Expiry
deriving DecidableEq, Repr

/-- `get_batch_of_prices_for_region` (`prices.py` lines 56-70), with the
fetch (`_get_prices_for_region`, a thin client call plus logging)
abstracted into its outcome `fetchResult` and the external constructor
`BatchOfPrices.from_nordpool_prices` into `from_nordpool_prices`: on
`NordPoolException` return an empty batch spanning the requested window,
otherwise build the batch from the fetched prices. -/
def get_batch_of_prices_for_region
    (fetchResult : Except NordPoolException NordpoolPrices)
    (from_nordpool_prices : NordpoolPrices → BatchOfPrices)
    (start_utc end_utc : ℤ) (region : AbstractRegion) : BatchOfPrices :=
  match fetchResult with
  | .error _ =>
      { intervals := []
        ts_from := start_utc
        ts_to := end_utc
        unit := region.price_unit_for_db
        region := region }
  | .ok nordpool_prices => from_nordpool_prices nordpool_prices

/-- The external collaborators `get_batch_of_prices` calls, passed as
explicit parameters: the market fetch outcome per request, the
`BatchOfPrices` constructor, the `has_correct_price_count` property, the
`-` (diff) and `merge` operations of `teems.signal.price`, and the
fallback generator `generate_batch_of_prices`. -/
structure OrchEnv where
  fetch : ℤ → ℤ → AbstractRegion → NordPoolStatus →
      Except NordPoolException NordpoolPrices
  from_nordpool_prices : NordpoolPrices → BatchOfPrices
  has_correct_price_count : BatchOfPrices → Bool
  sub : BatchOfPrices → BatchOfPrices → BatchOfPrices
  merge : BatchOfPrices → BatchOfPrices → BatchOfPrices
  generate_batch_of_prices : ℤ → ℤ → AbstractRegion → BatchOfPrices

/-- The orchestrator `get_batch_of_prices` (`prices.py` lines 74-133) as
a pure function returning the list of events passed to `emit_event`, in
emission order: fetch and publish the official batch; stop if it has the
correct price count and ends at `end_utc`; otherwise fetch provisional,
publish `provisional_bop - official_bop` with the provisional expiry
(`time(11, 15)`), stop if the merge passes the same check; otherwise
generate a fallback batch, subtract the merge, and publish that. -/
def get_batch_of_prices (env : OrchEnv) (start_utc end_utc : ℤ)
    (region : AbstractRegion) : List Prices :=
  let official_bop := get_batch_of_prices_for_region
    (env.fetch start_utc end_utc region .official)
    env.from_nordpool_prices start_utc end_utc region
  let officialEvent : Prices :=
    ⟨official_bop, .nordpool_official, .price_expiry⟩
  if env.has_correct_price_count official_bop ∧ official_bop.ts_to = end_utc then
    [officialEvent]
  else
    let provisional_bop := get_batch_of_prices_for_region
      (env.fetch start_utc end_utc region .provisional)
      env.from_nordpool_prices start_utc end_utc region
    let diff_batch := env.sub provisional_bop official_bop
    let provisionalEvent : Prices :=
      ⟨diff_batch, .nordpool_provisional, .provisional_price_expiry 11 15⟩
    let merged_bop := env.merge official_bop provisional_bop
    if env.has_correct_price_count merged_bop ∧ merged_bop.ts_to = end_utc then
      [officialEvent, provisionalEvent]
    else
      let abomination_bop :=
        env.sub (env.generate_batch_of_prices start_utc end_utc region) merged_bop
      [officialEvent, provisionalEvent,
        ⟨abomination_bop, .generated, .provisional_price_expiry 11 15⟩]

/-- The official-stage batch of one `get_batch_of_prices` invocation
(the source's local `official_bop`). -/
def officialBop (env : OrchEnv) (start_utc end_utc : ℤ)
    (region : AbstractRegion) : BatchOfPrices :=
  get_batch_of_prices_for_region
    (env.fetch start_utc end_utc region .official)
    env.from_nordpool_prices start_utc end_utc region

/-- The provisional-stage batch of one `get_batch_of_prices` invocation
(the source's local `provisional_bop`; a pure function of the inputs,
defined whether or not the stage runs). -/
def provisionalBop (env : OrchEnv) (start_utc end_utc : ℤ)
    (region : AbstractRegion) : BatchOfPrices :=
  get_batch_of_prices_for_region
    (env.fetch start_utc end_utc region .provisional)
    env.from_nordpool_prices start_utc end_utc region

/-- The merged batch `official_bop.merge(provisional_bop)` of one
invocation. -/
def mergedBop (env : OrchEnv) (start_utc end_utc : ℤ)
    (region : AbstractRegion) : BatchOfPrices :=
  env.merge (officialBop env start_utc end_utc region)
    (provisionalBop env start_utc end_utc region)

/-- The terminal check of the orchestrator: `has_correct_price_count`
holds and the batch's `ts_to` equals `end_utc`. -/
def terminalCheck (env : OrchEnv) (end_utc : ℤ) (b : BatchOfPrices) : Prop :=
  env.has_correct_price_count b = true ∧ b.ts_to = end_utc

instance (env : OrchEnv) (end_utc : ℤ) (b : BatchOfPrices) :
    Decidable (terminalCheck env end_utc b) := by
  unfold terminalCheck; infer_instance

/-- A naive local datetime: whole days since an epoch that falls on a
Monday, plus minutes after local midnight.  Enough structure for
`weekday()`, midnight truncation and day arithmetic. -/
structure LocalDateTime where
  day : ℤ
  minute : ℤ
deriving DecidableEq, Repr

/-- Python's `datetime.weekday()`: 0 for Monday through 6 for Sunday
(the epoch of `LocalDateTime.day` is a Monday). -/
def LocalDateTime.weekday (d : LocalDateTime) : ℤ :=
  d.day % 7

/-- `local_now.replace(hour=0, minute=0, second=0, microsecond=0)`. -/
def LocalDateTime.truncateToMidnight (d : LocalDateTime) : LocalDateTime :=
  ⟨d.day, 0⟩

/-- `d + timedelta(days=n)` on a naive local datetime. -/
def LocalDateTime.addDays (d : LocalDateTime) (n : ℤ) : LocalDateTime :=
  ⟨d.day + n, d.minute⟩

/-- A region's timezone (`region.timezone`), external collaborator: its
local-to-UTC conversion, kept abstract. -/
structure Timezone where
  convert_local_time_to_utc : LocalDateTime → ℤ

/-- `get_timeframe_for_region` (`prices.py` lines 136-149), with the
region entering only through its timezone and `local_time_now()` passed
as the explicit `local_now`: look back 3 days when today is a Monday
else 1 day, look forward 2 days, from local midnight, both converted to
UTC by the region's timezone. -/
def get_timeframe_for_region (timezone : Timezone)
    (local_now : LocalDateTime) : ℤ × ℤ :=
  let is_monday := local_now.weekday = 0
  let days_behind_today : ℤ := if is_monday then 3 else 1
  let truncated_local_now := local_now.truncateToMidnight
  let start_local := truncated_local_now.addDays (-days_behind_today)
  let end_local := truncated_local_now.addDays 2
  (timezone.convert_local_time_to_utc start_local,
    timezone.convert_local_time_to_utc end_local)

/-- Interval `j` occupies the same slot as `i` with an identical value
(same start, same end, same price).  Equality criterion for the diff,
per the spec's §4.2 (value-level identity; unit and currency are
batch-level here). -/
def sameSlotSameValue (i j : PriceInterval) : Bool :=
  i.start == j.start && i.stop == j.stop && i.value == j.value

/-- Modelled from the spec: `BatchOfPrices.__sub__` (diff) of
`teems.signal.price`, absent from `src/`.  Per §4.2: keep only intervals
of `newer` whose slot is not present with an identical value in `older`,
restricted to the overlap of the two requested ranges; the result's
`ts_from`/`ts_to` track the overlap. -/
def diff (newer older : BatchOfPrices) : BatchOfPrices :=
  let f := max newer.ts_from older.ts_from
  let t := min newer.ts_to older.ts_to
  { intervals := newer.intervals.filter fun i =>
      f ≤ i.start && i.stop ≤ t &&
        !(older.intervals.any fun j => sameSlotSameValue i j)
    ts_from := f
    ts_to := t
    unit := newer.unit
    region := newer.region }

/-- The empty batch over a requested window: no intervals, "no data
obtained" (spec §4.2 edge cases). -/
def emptyBatch (ts_from ts_to : ℤ) (unit : String)
    (region : AbstractRegion) : BatchOfPrices :=
  { intervals := [], ts_from := ts_from, ts_to := ts_to,
    unit := unit, region := region }

/-- `b` restricted to the window `[f, t)`: keep the intervals lying
inside it and set the requested range to the window. -/
def restrictBatch (b : BatchOfPrices) (f t : ℤ) : BatchOfPrices :=
  { intervals := b.intervals.filter fun i => f ≤ i.start && i.stop ≤ t
    ts_from := f
    ts_to := t
    unit := b.unit
    region := b.region }

/-- The spec's batch invariant (§3): every interval lies within the
requested window `[ts_from, ts_to)`. -/
def BatchOfPrices.wf (b : BatchOfPrices) : Bool :=
  b.intervals.all fun i => b.ts_from ≤ i.start && i.stop ≤ b.ts_to

/-- Modelled from the spec: `BatchOfPrices.reduce_to_existing_intervals`
of `teems.signal.price`, absent from `src/`.  Per §4.2: collapse
`ts_from`/`ts_to` to the minimal envelope actually containing intervals,
keeping the intervals; an empty batch has no envelope and is returned
unchanged. -/
def reduce_to_existing_intervals (b : BatchOfPrices) : BatchOfPrices :=
  match b.intervals with
  | [] => b
  | i :: rest =>
      { b with
        ts_from := rest.foldl (fun acc j => min acc j.start) i.start
        ts_to := rest.foldl (fun acc j => max acc j.stop) i.stop }

/-- Result of one `_update_unofficial_prices` run: the window of the
official refetch when one was issued, and the events published. -/
structure UpdateResult where
  fetchedWindow : Option (ℤ × ℤ)
  events : List Prices
deriving Repr

/-- `_update_unofficial_prices` (`update_unofficial_prices.py` lines
38-60), with the storage read (`BatchOfPrices.from_db`) abstracted into
its result `unofficial_bop` and the market fetch into `fetch` (outcome
per requested window): reduce the stored non-official batch to its
minimal envelope; if it still has intervals, refetch official prices
over exactly the reduced window and publish the fetched batch when it
has at least one interval. -/
def update_unofficial_prices_run (unofficial_bop : BatchOfPrices)
    (fetch : ℤ → ℤ → Except NordPoolException NordpoolPrices)
    (from_nordpool_prices : NordpoolPrices → BatchOfPrices)
    (region : AbstractRegion) : UpdateResult :=
  let reduced := reduce_to_existing_intervals unofficial_bop
  match reduced.intervals with
  | [] => { fetchedWindow := none, events := [] }
  | _ :: _ =>
      let bop := get_batch_of_prices_for_region
        (fetch reduced.ts_from reduced.ts_to) from_nordpool_prices
        reduced.ts_from reduced.ts_to region
      { fetchedWindow := some (reduced.ts_from, reduced.ts_to)
        events :=
          if bop.intervals.isEmpty then []
          else [⟨bop, .nordpool_official, .price_expiry⟩] }

/-! ## Theorems -/

/-- C10: every `NordpoolPriceValue` constructed from provider data has
timezone-naive `start_time` and `end_time` — the validators replace
`tzinfo` with `None` on both fields, dropping (not converting) any
offset, while the naive clock readings are kept unchanged. -/
theorem c10_price_value_tz_stripped (startRaw endRaw : DateTimeTz) (v : ℚ) :
    (NordpoolPriceValue.fromProvider startRaw endRaw v).start_time.tz = none ∧
    (NordpoolPriceValue.fromProvider startRaw endRaw v).end_time.tz = none ∧
    (NordpoolPriceValue.fromProvider startRaw endRaw v).start_time.naive
      = startRaw.naive ∧
    (NordpoolPriceValue.fromProvider startRaw endRaw v).end_time.naive
      = endRaw.naive :=
  ⟨rfl, rfl, rfl, rfl⟩

/-- C2: when the market fetch raises `NordPoolException`,
`get_batch_of_prices_for_region` returns an empty batch spanning exactly
`[start_utc, end_utc]` instead of propagating the error; on success it
returns the batch built from the fetched prices. -/
theorem c2_fetch_error_degrades_to_empty_batch (ex : NordPoolException)
    (np : NordpoolPrices) (from_np : NordpoolPrices → BatchOfPrices)
    (start_utc end_utc : ℤ) (region : AbstractRegion) :
    get_batch_of_prices_for_region (.error ex) from_np start_utc end_utc region
      = { intervals := [], ts_from := start_utc, ts_to := end_utc,
          unit := region.price_unit_for_db, region := region } ∧
    get_batch_of_prices_for_region (.ok np) from_np start_utc end_utc region
      = from_np np :=
  ⟨rfl, rfl⟩

/-- C5: `renew_nordpool_token_if_needed` acquires (and stores) a new
credential exactly when no credential is stored or the stored one's
`expires_at` is within the 10-minute safety margin of `now`; otherwise
it returns the stored credential unchanged with no acquisition. -/
theorem c5_token_renewed_iff_stale (stored : Option NordPoolTokenResponse)
    (now : ℤ) (api : NordPoolApiTokenResponse) :
    ((renew_nordpool_token_if_needed stored now api).acquired = true ↔
      stored = none ∨
        ∃ tok, stored = some tok ∧ tok.expires_at < now + 10 * 60) ∧
    ((renew_nordpool_token_if_needed stored now api).acquired = true →
      renew_nordpool_token_if_needed stored now api =
        ⟨get_nordpool_token api now, true, some (get_nordpool_token api now)⟩) ∧
    (∀ tok, stored = some tok → ¬tok.expires_at < now + 10 * 60 →
      renew_nordpool_token_if_needed stored now api = ⟨tok, false, some tok⟩) := by
  cases stored with
  | none =>
      refine ⟨⟨fun _ => Or.inl rfl, fun _ => rfl⟩, fun _ => rfl, ?_⟩
      intro tok h' _; cases h'
  | some tok =>
      by_cases h : tok.expires_at < now + 10 * 60
      · have h6 : tok.expires_at < now + 600 := by omega
        simp [renew_nordpool_token_if_needed, h, h6]
      · have h6 : ¬tok.expires_at < now + 600 := by omega
        simp [renew_nordpool_token_if_needed, h, h6]

/-- Witness for C5 at a concrete input: a credential valid for well over
10 minutes is returned unchanged, no acquisition. -/
theorem c5_token_renewed_iff_stale_witness :
    renew_nordpool_token_if_needed (some ⟨"tok", 1000, "Bearer"⟩) 0
        ⟨3600, "fresh", "Bearer"⟩ =
      ⟨⟨"tok", 1000, "Bearer"⟩, false, some ⟨"tok", 1000, "Bearer"⟩⟩ :=
  (c5_token_renewed_iff_stale (some ⟨"tok", 1000, "Bearer"⟩) 0
    ⟨3600, "fresh", "Bearer"⟩).2.2 ⟨"tok", 1000, "Bearer"⟩ rfl (by decide)

/-- C6 counterexample: HTTP 204 is a 2xx status and the body decodes
fine, yet `get_prices` raises the domain error instead of returning the
parsed prices; and with a 2xx status and a decodable but empty list it
fails with the unpacking error rather than returning prices.  Both
contradict "in every other case returns the parsed prices". -/
theorem c6_counterexample :
    (200 ≤ 204 ∧ 204 < 300) ∧
    get_prices 204 (.ok [⟨[]⟩]) =
      .error (.nordpool "There was an error getting prices from Nordpool") ∧
    get_prices 250 (.ok []) = .error .unpack :=
  ⟨by decide, rfl, rfl⟩

/-- C6 (amended): `get_prices` returns the domain error exactly when the
status is not 2xx, or the status is 204 No Content, or the body cannot
be decoded; when the status is 2xx and not 204 and the decoded list is
nonempty, it returns the first parsed series. -/
theorem c6_domain_error_characterization (st : ℕ)
    (dec : Except RESTClientException (List NordpoolPrices)) :
    ((∃ m, get_prices st dec = .error (.nordpool m)) ↔
      st < 200 ∨ 300 ≤ st ∨ st = 204 ∨ ∃ e, dec = .error e) ∧
    (∀ p rest, 200 ≤ st → st < 300 → st ≠ 204 → dec = .ok (p :: rest) →
      get_prices st dec = .ok p) := by
  by_cases h : ¬(200 ≤ st ∧ st < 300) ∨ st = 204
  · constructor
    · simp only [get_prices, if_pos h]
      constructor
      · intro _; omega
      · intro _; exact ⟨_, rfl⟩
    · intro p rest h1 h2 h3 _
      exact absurd h (by omega)
  · have hrange : 200 ≤ st ∧ st < 300 ∧ st ≠ 204 := by omega
    constructor
    · cases dec with
      | error e =>
          simp only [get_prices, if_neg h]
          exact ⟨fun _ => Or.inr (Or.inr (Or.inr ⟨e, rfl⟩)), fun _ => ⟨_, rfl⟩⟩
      | ok l =>
          cases l with
          | nil =>
              simp only [get_prices, if_neg h]
              constructor
              · rintro ⟨m, hm⟩; cases hm
              · rintro (h' | h' | h' | ⟨e, h'⟩) <;> first | omega | cases h'
          | cons p rest =>
              simp only [get_prices, if_neg h]
              constructor
              · rintro ⟨m, hm⟩; cases hm
              · rintro (h' | h' | h' | ⟨e, h'⟩) <;> first | omega | cases h'
    · rintro p rest _ _ _ rfl
      simp only [get_prices, if_neg h]

/-- Witness for C6 (amended) at a concrete input: status 250, one
decoded series — `get_prices` returns that series. -/
theorem c6_domain_error_characterization_witness :
    get_prices 250 (.ok [⟨[⟨⟨0, none⟩, ⟨60, none⟩, 5⟩]⟩]) =
      .ok ⟨[⟨⟨0, none⟩, ⟨60, none⟩, 5⟩]⟩ :=
  (c6_domain_error_characterization 250
    (.ok [⟨[⟨⟨0, none⟩, ⟨60, none⟩, 5⟩]⟩])).2
    ⟨[⟨⟨0, none⟩, ⟨60, none⟩, 5⟩]⟩ [] (by decide) (by decide) (by decide) rfl

/-- C9: on a 2xx non-204 status with a decoded list, `get_prices`
returns exactly the first series, discarding the rest; an empty decoded
list fails with the unpacking error, which is distinct from the domain
error — so a nonempty list is required to avoid that branch. -/
theorem c9_first_series_only (st : ℕ) (p : NordpoolPrices)
    (rest : List NordpoolPrices)
    (h1 : 200 ≤ st) (h2 : st < 300) (h3 : st ≠ 204) :
    get_prices st (.ok (p :: rest)) = .ok p ∧
    get_prices st (.ok []) = .error .unpack ∧
    (∀ m, GetPricesError.unpack ≠ GetPricesError.nordpool m) := by
  have h : ¬(¬(200 ≤ st ∧ st < 300) ∨ st = 204) := by omega
  refine ⟨?_, ?_, fun m hm => by cases hm⟩ <;>
    simp only [get_prices, if_neg h]

/-- Witness for C9 at a concrete input: status 250, two decoded series —
only the first is returned, and the empty list gives the unpack error. -/
theorem c9_first_series_only_witness :
    get_prices 250 (.ok [⟨[]⟩, ⟨[⟨⟨0, none⟩, ⟨60, none⟩, 7⟩]⟩]) = .ok ⟨[]⟩ ∧
    get_prices 250 (.ok []) = .error .unpack :=
  ⟨(c9_first_series_only 250 ⟨[]⟩ [⟨[⟨⟨0, none⟩, ⟨60, none⟩, 7⟩]⟩]
      (by decide) (by decide) (by decide)).1,
   (c9_first_series_only 250 ⟨[]⟩ []
      (by decide) (by decide) (by decide)).2.1⟩

/-- C4: `get_timeframe_for_region` returns the window whose local start
is local midnight of today minus 3 days when today is a Monday (weekday
0) and minus 1 day otherwise, and whose local end is local midnight plus
2 days, both converted to UTC by the region's timezone; it is a pure
function of the timezone and the current local time. -/
theorem c4_timeframe_window (timezone : Timezone)
    (local_now : LocalDateTime) :
    get_timeframe_for_region timezone local_now =
      (timezone.convert_local_time_to_utc
          ⟨local_now.day - (if local_now.day % 7 = 0 then 3 else 1), 0⟩,
       timezone.convert_local_time_to_utc ⟨local_now.day + 2, 0⟩) := by
  by_cases h : local_now.day % 7 = 0 <;>
    simp only [get_timeframe_for_region, LocalDateTime.weekday,
      LocalDateTime.truncateToMidnight, LocalDateTime.addDays, h,
      if_true, if_false, sub_eq_add_neg]

/-- Helper: the full event trace of one `get_batch_of_prices`
invocation, written with the stage batches named. -/
theorem get_batch_of_prices_trace (env : OrchEnv) (start_utc end_utc : ℤ)
    (region : AbstractRegion) :
    get_batch_of_prices env start_utc end_utc region =
      ⟨officialBop env start_utc end_utc region, .nordpool_official,
        .price_expiry⟩ ::
      (if terminalCheck env end_utc (officialBop env start_utc end_utc region)
        then []
        else
          ⟨env.sub (provisionalBop env start_utc end_utc region)
              (officialBop env start_utc end_utc region),
            .nordpool_provisional, .provisional_price_expiry 11 15⟩ ::
          (if terminalCheck env end_utc (mergedBop env start_utc end_utc region)
            then []
            else
              [⟨env.sub (env.generate_batch_of_prices start_utc end_utc region)
                  (mergedBop env start_utc end_utc region),
                .generated, .provisional_price_expiry 11 15⟩])) := by
  simp only [get_batch_of_prices, officialBop, provisionalBop, mergedBop,
    terminalCheck]
  split_ifs <;> rfl

/-- C1: in every `get_batch_of_prices` invocation the official batch is
fetched and published first; the provisional stage runs iff the official
batch fails the terminal check (`has_correct_price_count` and
`ts_to = end_utc`), the backfill stage runs iff the merged batch also
fails that check, and stages appear at most once, always in the order
official, provisional, backfill. -/
theorem c1_orchestrator_stage_sequence (env : OrchEnv) (start_utc end_utc : ℤ)
    (region : AbstractRegion) :
    (get_batch_of_prices env start_utc end_utc region).head? =
      some ⟨officialBop env start_utc end_utc region, .nordpool_official,
        .price_expiry⟩ ∧
    (get_batch_of_prices env start_utc end_utc region).map Prices.origin =
      (if terminalCheck env end_utc (officialBop env start_utc end_utc region)
        then [.nordpool_official]
        else if terminalCheck env end_utc
            (mergedBop env start_utc end_utc region)
          then [.nordpool_official, .nordpool_provisional]
          else [.nordpool_official, .nordpool_provisional, .generated]) := by
  rw [get_batch_of_prices_trace]
  split_ifs <;> simp

/-- C3: whenever the provisional stage runs (the official batch fails
the terminal check), the second published event is exactly the diff
`provisional_bop - official_bop`, with origin `nordpool_provisional` and
the provisional expiry from the fixed local cutoff `time(11, 15)`, which
is distinct from the official expiry; this holds for every environment,
so the publication is total in the provisional and official batches. -/
theorem c3_provisional_delta_published (env : OrchEnv) (start_utc end_utc : ℤ)
    (region : AbstractRegion)
    (h : ¬terminalCheck env end_utc (officialBop env start_utc end_utc region)) :
    (get_batch_of_prices env start_utc end_utc region)[1]? =
      some ⟨env.sub (provisionalBop env start_utc end_utc region)
          (officialBop env start_utc end_utc region),
        .nordpool_provisional, .provisional_price_expiry 11 15⟩ ∧
    Expiry.provisional_price_expiry 11 15 ≠ Expiry.price_expiry := by
  rw [get_batch_of_prices_trace]
  rw [if_neg h]
  refine ⟨?_, fun hc => by cases hc⟩
  split_ifs <;> rfl

/-- Concrete environment for exercising the orchestrator: every fetch
fails (degrading to empty batches), the price-count check never holds,
diff and merge keep their left argument. -/
def envW : OrchEnv :=
  { fetch := fun _ _ _ _ => .error ⟨"provider outage"⟩
    from_nordpool_prices := fun _ => emptyBatch 0 0 "EUR/MWh" ⟨"SE1", "SEK", "eur"⟩
    has_correct_price_count := fun _ => false
    sub := fun a _ => a
    merge := fun a _ => a
    generate_batch_of_prices := fun s t r => emptyBatch s t "EUR/MWh" r }

/-- Witness for C3 at a concrete input: with `envW` the official batch
never passes the check, and the second event is the provisional diff. -/
theorem c3_provisional_delta_published_witness :
    (get_batch_of_prices envW 0 10 ⟨"SE1", "SEK", "eur"⟩)[1]? =
      some ⟨envW.sub (provisionalBop envW 0 10 ⟨"SE1", "SEK", "eur"⟩)
          (officialBop envW 0 10 ⟨"SE1", "SEK", "eur"⟩),
        .nordpool_provisional, .provisional_price_expiry 11 15⟩ ∧
    Expiry.provisional_price_expiry 11 15 ≠ Expiry.price_expiry :=
  c3_provisional_delta_published envW 0 10 ⟨"SE1", "SEK", "eur"⟩
    (by intro hc; exact Bool.noConfusion hc.1)

/-- The batch refetched by the unofficial-price-update path: official
prices over the reduced batch's envelope `[ts_from, ts_to]`. -/
def refetchedBop (unofficial_bop : BatchOfPrices)
    (fetch : ℤ → ℤ → Except NordPoolException NordpoolPrices)
    (from_nordpool_prices : NordpoolPrices → BatchOfPrices)
    (region : AbstractRegion) : BatchOfPrices :=
  get_batch_of_prices_for_region
    (fetch (reduce_to_existing_intervals unofficial_bop).ts_from
      (reduce_to_existing_intervals unofficial_bop).ts_to)
    from_nordpool_prices
    (reduce_to_existing_intervals unofficial_bop).ts_from
    (reduce_to_existing_intervals unofficial_bop).ts_to region

/-- C7: in the unofficial-price-update path, when the reduced batch has
no intervals no fetch is made and no event is published; otherwise the
official refetch is issued over exactly the reduced envelope
`[ts_from, ts_to]`, and the fetched batch is published (as an official
event) iff it contains at least one interval. -/
theorem c7_refetch_over_reduced_envelope (unofficial_bop : BatchOfPrices)
    (fetch : ℤ → ℤ → Except NordPoolException NordpoolPrices)
    (from_np : NordpoolPrices → BatchOfPrices) (region : AbstractRegion) :
    ((reduce_to_existing_intervals unofficial_bop).intervals = [] →
      update_unofficial_prices_run unofficial_bop fetch from_np region =
        ⟨none, []⟩) ∧
    ((reduce_to_existing_intervals unofficial_bop).intervals ≠ [] →
      (update_unofficial_prices_run unofficial_bop fetch from_np
          region).fetchedWindow =
        some ((reduce_to_existing_intervals unofficial_bop).ts_from,
          (reduce_to_existing_intervals unofficial_bop).ts_to) ∧
      (update_unofficial_prices_run unofficial_bop fetch from_np
          region).events =
        (if (refetchedBop unofficial_bop fetch from_np region).intervals.isEmpty
          then []
          else [⟨refetchedBop unofficial_bop fetch from_np region,
            .nordpool_official, .price_expiry⟩])) := by
  by_cases hc : (reduce_to_existing_intervals unofficial_bop).intervals = []
  · refine ⟨fun _ => ?_, fun hne => absurd hc hne⟩
    simp only [update_unofficial_prices_run, hc]
  · refine ⟨fun h => absurd h hc, fun _ => ?_⟩
    obtain ⟨a, l, heq⟩ := List.exists_cons_of_ne_nil hc
    simp only [update_unofficial_prices_run, refetchedBop, heq]
    exact ⟨trivial, trivial⟩

/-- A stored batch of non-official prices for exercising the
unofficial-price-update path: one interval inside a wider requested
window, so the envelope shrinks to `[5, 65]`. -/
def bop7 : BatchOfPrices :=
  ⟨[⟨5, 65, 3⟩], 0, 100, "EUR/MWh", ⟨"SE1", "SEK", "eur"⟩⟩

/-- A market fetch that always fails (provider outage). -/
def fetch7 : ℤ → ℤ → Except NordPoolException NordpoolPrices :=
  fun _ _ => .error ⟨"provider outage"⟩

/-- A `from_nordpool_prices` stand-in for the C7 witness. -/
def fromNp7 : NordpoolPrices → BatchOfPrices :=
  fun _ => emptyBatch 0 0 "EUR/MWh" ⟨"SE1", "SEK", "eur"⟩

/-- Witness for C7 at a concrete input: the stored batch reduces to the
envelope `[5, 65]`, the refetch is issued over exactly that window, the
fetch fails so the refetched batch is empty and nothing is published. -/
theorem c7_refetch_over_reduced_envelope_witness :
    (update_unofficial_prices_run bop7 fetch7 fromNp7
        ⟨"SE1", "SEK", "eur"⟩).fetchedWindow = some (5, 65) ∧
    (update_unofficial_prices_run bop7 fetch7 fromNp7
        ⟨"SE1", "SEK", "eur"⟩).events = [] := by
  have h := (c7_refetch_over_reduced_envelope bop7 fetch7 fromNp7
    ⟨"SE1", "SEK", "eur"⟩).2 (by decide)
  exact ⟨h.1.trans (by decide), h.2.trans (by decide)⟩

/-- C8: `diff(b, b)` is the empty batch for every batch `b`, and
`diff(b, emptyBatch)` equals `b` restricted to the overlap of the two
requested ranges — hence equals `b` itself when the ranges match (and
`b` satisfies the batch invariant that its intervals lie inside its
requested range). -/
theorem c8_diff_identity :
    (∀ b : BatchOfPrices, (diff b b).intervals = []) ∧
    (∀ (b : BatchOfPrices) (f t : ℤ) (u : String) (r : AbstractRegion),
      diff b (emptyBatch f t u r) =
        restrictBatch b (max b.ts_from f) (min b.ts_to t)) ∧
    (∀ (b : BatchOfPrices) (u : String) (r : AbstractRegion), b.wf = true →
      diff b (emptyBatch b.ts_from b.ts_to u r) = b) := by
  have hself : ∀ i : PriceInterval, sameSlotSameValue i i = true := by
    intro i; simp [sameSlotSameValue]
  have h1 : ∀ b : BatchOfPrices, (diff b b).intervals = [] := by
    intro b
    simp only [diff]
    rw [List.filter_eq_nil_iff]
    intro i hi
    have hany : (b.intervals.any fun j => sameSlotSameValue i j) = true :=
      List.any_eq_true.mpr ⟨i, hi, hself i⟩
    simp [hany]
  have h2 : ∀ (b : BatchOfPrices) (f t : ℤ) (u : String) (r : AbstractRegion),
      diff b (emptyBatch f t u r) =
        restrictBatch b (max b.ts_from f) (min b.ts_to t) := by
    intro b f t u r
    simp [diff, emptyBatch, restrictBatch]
  have h3 : ∀ (b : BatchOfPrices) (u : String) (r : AbstractRegion),
      b.wf = true → diff b (emptyBatch b.ts_from b.ts_to u r) = b := by
    intro b u r hwf
    rw [h2, max_self, min_self]
    simp only [BatchOfPrices.wf] at hwf
    have hkeep : (b.intervals.filter fun i =>
        b.ts_from ≤ i.start && i.stop ≤ b.ts_to) = b.intervals :=
      List.filter_eq_self.mpr (List.all_eq_true.mp hwf)
    simp only [restrictBatch, hkeep]
  exact ⟨h1, h2, h3⟩

/-- Witness for C8 at a concrete input: a one-interval batch satisfies
the invariant, and its diff against the empty batch over the same range
is the batch itself. -/
theorem c8_diff_identity_witness :
    BatchOfPrices.wf ⟨[⟨0, 60, 5⟩], 0, 60, "EUR/MWh", ⟨"SE1", "SEK", "eur"⟩⟩
      = true ∧
    diff ⟨[⟨0, 60, 5⟩], 0, 60, "EUR/MWh", ⟨"SE1", "SEK", "eur"⟩⟩
        (emptyBatch 0 60 "EUR/MWh" ⟨"SE1", "SEK", "eur"⟩) =
      ⟨[⟨0, 60, 5⟩], 0, 60, "EUR/MWh", ⟨"SE1", "SEK", "eur"⟩⟩ :=
  ⟨by decide,
    c8_diff_identity.2.2 ⟨[⟨0, 60, 5⟩], 0, 60, "EUR/MWh", ⟨"SE1", "SEK", "eur"⟩⟩
      "EUR/MWh" ⟨"SE1", "SEK", "eur"⟩ (by decide)⟩

end Nordpool
